import Mathlib

/-!
# Verification of the valleyair query-routing and hybrid-retrieval pipeline

Shallow embedding of the pipeline implemented in `workflow.py`,
`agents/query_context.py`, `agents/retrieval.py`, `agents/synthesis.py`,
`agents/air_quality_agent.py` and `vectorstore.py`.

Python dictionaries with possibly-absent keys are embedded as structures of
`Option`-valued fields; a Python exception escaping a function is embedded as
`Option.none` in an `Option`-valued result.  Floating-point relevance scores
only ever flow through comparisons and truncations here, so they are embedded
as rationals.  External collaborators (the text-generation model, the vector
retriever, the Elasticsearch connection, the cross-encoder, geocoding and the
air-quality API) are embedded as function-valued parameters, mirroring the
spec's collaborator contracts.
-/

set_option maxRecDepth 16384

namespace ValleyAir

/-! ## Models of the Python string primitives used by the pipeline

`str.split()` (no argument), `str.strip()`, `str.lower()` and
`str.splitlines()[0]` are Python standard-library operations; they are
embedded below on `List Char`.  `Char.isWhitespace` covers the ASCII
whitespace characters (space, tab, newline, carriage return) that
Python's default whitespace handling covers for the inputs of interest;
`Char.toLower` covers ASCII case folding as used by the two ASCII labels
of the classifier. -/

/-- Model of Python `str.split()` on a character list: split on runs of
whitespace, discarding empty pieces.  `acc` holds the (reversed) characters of
the token currently being read. -/
def splitWsAux : List Char → List Char → List (List Char)
  | [], acc => if acc = [] then [] else [acc.reverse]
  | c :: cs, acc =>
    if c.isWhitespace then
      if acc = [] then splitWsAux cs [] else acc.reverse :: splitWsAux cs []
    else
      splitWsAux cs (c :: acc)

/-- Model of Python `str.split()`: whitespace tokenisation of a string. -/
def pySplit (s : String) : List String :=
  (splitWsAux s.data []).map (fun l => ⟨l⟩)

/-- Strip leading and trailing whitespace from a character list
(model of Python `str.strip()`). -/
def stripList (l : List Char) : List Char :=
  ((l.dropWhile Char.isWhitespace).reverse.dropWhile Char.isWhitespace).reverse

/-- Model of Python `str.strip()`. -/
def pyStrip (s : String) : String := ⟨stripList s.data⟩

/-- Model of Python `str.lower()` (ASCII case folding). -/
def pyLower (s : String) : String := ⟨s.data.map Char.toLower⟩

/-- The first line of a string: the characters before the first line break.
Models `str.splitlines()[0]` on a non-empty string (`\n` and `\r` breaks). -/
def firstLineChars (l : List Char) : List Char :=
  l.takeWhile (fun c => !(c == '\n' || c == '\r'))

/-! ## Query classifier (`workflow.py`, `QueryClassifierTool.__call__`)

```
label = response.strip().splitlines()[0].strip().lower()
if label not in ["air_quality", "general"]:
    label = "general"
```
`"".splitlines()` is `[]` in Python, so indexing `[0]` raises `IndexError`
when the stripped response is empty; that exception is embedded as `none`. -/

/-- The label the classifier parses out of a raw model response:
first line of the stripped response, stripped and lowercased. -/
def classifierParsedLabel (response : String) : String :=
  ⟨(stripList (firstLineChars (stripList response.data))).map Char.toLower⟩

/-- Model of `QueryClassifierTool.__call__`'s label computation.
`none` embeds the `IndexError` raised on an empty/all-whitespace response. -/
def classifyLabel (response : String) : Option String :=
  if stripList response.data = [] then none
  else some (if classifierParsedLabel response = "air_quality" ∨
      classifierParsedLabel response = "general"
    then classifierParsedLabel response else "general")

/-! ## Query expander (`agents/query_context.py`, `QueryContextAgent`)

```
try:
    data = json.loads(response)
    rewrites = data.get("rewrites", [])
    keywords = data.get("keywords", [])
except Exception:
    rewrites = [user_query]
    keywords = user_query.split()
```
`json.loads` is a standard-library call; its outcome is embedded as an
`Option ExpandParsed` value (`none` embeds the parse exception, and an
`ExpandParsed` embeds a parsed JSON object whose two array-valued fields
may each be absent). -/

/-- A model response parsed as a JSON object: the two array-valued fields the
expander reads, each possibly absent (`dict.get` then yields the default). -/
structure ExpandParsed where
  rewrites : Option (List String)
  keywords : Option (List String)
deriving DecidableEq

/-- Model of the expander's rewrites/keywords computation, given the outcome
of `json.loads` on the model response and the original query. -/
def expandResult (parsed : Option ExpandParsed) (user_query : String) :
    List String × List String :=
  match parsed with
  | some d => (d.rewrites.getD [], d.keywords.getD [])
  | none => ([user_query], pySplit user_query)

/-! ## Candidate documents (`agents/retrieval.py`, `workflow.py`)

Two dynamic shapes flow through the retrieval pipeline:
* langchain `Document` objects (semantic leg, and enriched results built by
  `CustomElasticsearchStore._create_documents`), with `page_content` and a
  `metadata` dict carrying `url` / `title` / `chunk_index` / `score`
  (arbitrary further metadata keys are not consulted by the pipeline and are
  not embedded);
* plain dicts (BM25 corpus entries built by `load_docs_corpus`), with
  `content` / `url` / `title` keys.  `oid` embeds the Python object identity
  `id(doc)` used for the synthetic fusion key of url-less lexical candidates:
  distinct live objects have distinct ids. -/

/-- A langchain `Document.metadata` dict: each key possibly absent.
A metadata key that is absent and a metadata dict that is empty read the same
through `dict.get`, so the all-`none` value also embeds the empty dict. -/
structure Meta where
  url : Option String
  title : Option String
  chunk_index : Option Int
  score : Option ℚ
deriving DecidableEq

/-- A corpus/dict-shaped candidate (`{"content": ..., "url": ..., "title": ...}`,
possibly with a `chunk_index` key). -/
structure PyDoc where
  content : String
  url : Option String
  title : Option String
  chunk_index : Option Int
  oid : Nat
deriving DecidableEq

/-- A retrieval candidate: either a langchain `Document` or a plain dict. -/
inductive RDoc where
  | lcdoc (page_content : String) (metadata : Meta)
  | pydict (d : PyDoc)
deriving DecidableEq

/-- `doc.page_content if hasattr(doc, 'page_content') else doc["content"]`. -/
def contentOf : RDoc → String
  | .lcdoc c _ => c
  | .pydict d => d.content

/-- `getattr(doc, 'metadata', {}).get("url", None)`: dicts have no `metadata`
attribute, so they read `none` here. -/
def semUrl : RDoc → Option String
  | .lcdoc _ m => m.url
  | .pydict _ => none

/-- Python truthiness of an optional string: `None` and `""` are falsy. -/
def truthyStr : Option String → Option String
  | some u => if u = "" then none else some u
  | none => none

/-! ## Result fusion (`agents/retrieval.py` lines 25-38)

`all_docs` is a Python dict (string keys, insertion-ordered); it is embedded
as an association list with unique keys, where assigning to an existing key
replaces the value in place and assigning to a fresh key appends. -/

/-- The fused candidate map: identity key to candidate, in insertion order. -/
abbrev CandMap := List (String × RDoc)

/-- Python dict assignment `m[k] = v`: replace in place if `k` is present,
append otherwise. -/
def dictInsert (k : String) (v : RDoc) : CandMap → CandMap
  | [] => [(k, v)]
  | (k', v') :: rest => if k' = k then (k, v) :: rest else (k', v') :: dictInsert k v rest

/-- The keys of the fused map, in insertion order. -/
def keysOf (m : CandMap) : List String := m.map Prod.fst

/-- Python `k in m` on the embedded dict. -/
def keyMem (k : String) (m : CandMap) : Prop := k ∈ keysOf m

instance (k : String) (m : CandMap) : Decidable (keyMem k m) := by
  unfold keyMem; infer_instance

/-- Python `m.get(k)` / `m[k]` lookup on the embedded dict. -/
def lookupKey (k : String) : CandMap → Option RDoc
  | [] => none
  | (k', v) :: rest => if k' = k then some v else lookupKey k rest

/-- The semantic insertion key: the `url` metadata field when present and
non-empty, else the synthetic per-position key `"vector_" + i`. -/
def semKey (i : ℕ) (d : RDoc) : String :=
  match truthyStr (semUrl d) with
  | some u => u
  | none => "vector_" ++ toString i

/-- The synthetic key of a url-less lexical candidate: `"bm25_" + id(doc)`. -/
def bm25Key (d : PyDoc) : String := "bm25_" ++ toString d.oid

/-- `for i, doc in enumerate(vector_results): ...` — insert every semantic
candidate, keyed by `semKey`, starting at position `i`. -/
def fuseSemFrom (i : ℕ) (sem : List RDoc) (acc : CandMap) : CandMap :=
  match sem with
  | [] => acc
  | d :: ds => fuseSemFrom (i + 1) ds (dictInsert (semKey i d) d acc)

/-- One step of the lexical loop:
```
url = doc.get("url", None)
if url and url not in all_docs:
    all_docs[url] = doc
elif not url:
    all_docs[f"bm25_{id(doc)}"] = doc
``` -/
def lexStep (acc : CandMap) (d : PyDoc) : CandMap :=
  match truthyStr d.url with
  | some u => if keyMem u acc then acc else dictInsert u (.pydict d) acc
  | none => dictInsert (bm25Key d) (.pydict d) acc

/-- The lexical insertion loop over `bm25_docs`. -/
def lexFold (lex : List PyDoc) (acc : CandMap) : CandMap :=
  match lex with
  | [] => acc
  | d :: ds => lexFold ds (lexStep acc d)

/-- `fuse(semanticCandidates, lexicalCandidates)`: the `all_docs` dict after
both insertion loops (`agents/retrieval.py` lines 25-37). -/
def fuse (sem : List RDoc) (lex : List PyDoc) : CandMap :=
  lexFold lex (fuseSemFrom 0 sem [])

/-! ## Score sorting (`agents/retrieval.py` lines 20 and 43)

`sorted(range(len(scores)), key=lambda i: -scores[i])` is Python's stable
sort by ascending `-score`: descending score, equal scores kept in index
order.  It is embedded as a stable insertion sort on `(index, score)`
pairs; `enumWithIndex` pairs each score with its position. -/

/-- Pair the elements of a list with their positions, starting at `n`. -/
def enumWithIndex (n : ℕ) : List ℚ → List (ℕ × ℚ)
  | [] => []
  | s :: ss => (n, s) :: enumWithIndex (n + 1) ss

/-- Stable descending insertion: `p` goes after the elements whose score is
strictly greater, and before the first element whose score is ≤ its own
(so among equal scores, the earlier-position element stays first). -/
def insertDesc (p : ℕ × ℚ) : List (ℕ × ℚ) → List (ℕ × ℚ)
  | [] => [p]
  | q :: rest => if p.2 < q.2 then q :: insertDesc p rest else p :: q :: rest

/-- Stable sort of `(index, score)` pairs by descending score. -/
def sortPairsDesc : List (ℕ × ℚ) → List (ℕ × ℚ)
  | [] => []
  | p :: ps => insertDesc p (sortPairsDesc ps)

/-- `sorted(range(len(scores)), key=lambda i: -scores[i])`. -/
def sortIndicesDesc (scores : List ℚ) : List ℕ :=
  (sortPairsDesc (enumWithIndex 0 scores)).map Prod.fst

/-- `pairs = [(query, doc.page_content if ... else doc["content"]) for doc in
combined_docs]` (`agents/retrieval.py` line 41): the (query, passage) pairs
handed to the cross-encoder, all first components being the query. -/
def rerankPairs (query : String) (combined : List RDoc) : List (String × String) :=
  combined.map (fun d => (query, contentOf d))

/-! ## Lexical scorer

`agents/retrieval.py` lines 18-21 build the index and select the top 10:
```
bm25 = BM25Okapi([doc["content"].split() for doc in self.docs_corpus])
bm25_scores = bm25.get_scores(keywords)
bm25_top_indices = sorted(range(len(bm25_scores)), key=lambda i: -bm25_scores[i])[:10]
bm25_docs = [self.docs_corpus[i] for i in bm25_top_indices]
```
The scoring function itself lives in the external `rank_bm25` library, whose
code is not part of this repository. -/

/-- The whitespace tokens of a corpus document's content
(`doc["content"].split()`). -/
def docTokens (d : PyDoc) : List String := pySplit d.content

/-- Modelled from the spec: the `rank_bm25.BM25Okapi` per-term scorer, absent
from src/ (spec §4.3: term-frequency/inverse-document-frequency style scoring,
the standard probabilistic ranking function, keywords as the query term bag).
One query term's additive contribution to one document's score:
`idf(t) * tf * (k1+1) / (tf + k1 * (1 - b + b * dl/avgdl))` with the library
defaults `k1 = 1.5`, `b = 0.75`; the idf logarithm is replaced by the rational
monotone surrogate `(N - nd + 1/2) / (nd + 1/2)` of its argument.  A term with
zero term frequency contributes zero, as in the library. -/
def bm25TermScore (corpus : List PyDoc) (d : PyDoc) (t : String) : ℚ :=
  let nd : ℚ := ((corpus.filter (fun d' => t ∈ docTokens d')).length : ℚ)
  let idf : ℚ := ((corpus.length : ℚ) - nd + 1/2) / (nd + 1/2)
  let tf : ℚ := ((docTokens d).count t : ℚ)
  let dl : ℚ := ((docTokens d).length : ℚ)
  let avgdl : ℚ := ((corpus.map (fun d' => (docTokens d').length)).sum : ℚ) /
    (corpus.length : ℚ)
  idf * (tf * (3/2 + 1) / (tf + 3/2 * (1 - 3/4 + 3/4 * dl / avgdl)))

/-- Modelled from the spec: one document's lexical score is the sum of its
per-term scores over the query term bag (`BM25Okapi.get_scores`, additively
over query terms). -/
def bm25DocScore (corpus : List PyDoc) (keywords : List String) (d : PyDoc) : ℚ :=
  (keywords.map (bm25TermScore corpus d)).sum

/-- Modelled from the spec: `bm25.get_scores(keywords)` — one score per corpus
document, in corpus order. -/
def bm25Scores (corpus : List PyDoc) (keywords : List String) : List ℚ :=
  corpus.map (bm25DocScore corpus keywords)

/-- The top-10 lexical results
(`bm25_top_indices = sorted(...)[:10]; bm25_docs = [corpus[i] for i in ...]`);
`none` embeds an `IndexError` on an out-of-range index (unreachable, since
the score list has one entry per corpus document). -/
def bm25TopDocs (corpus : List PyDoc) (keywords : List String) :
    Option (List PyDoc) :=
  ((sortIndicesDesc (bm25Scores corpus keywords)).take 10).mapM
    (fun i => corpus.get? i)

/-! ## Metadata enrichment (`agents/retrieval.py` lines 45-83)

The Elasticsearch connection is an external collaborator; it is embedded as a
function from the issued query to the hit list of `search(..., size=1)`, of
which the code only consults the first hit. -/

/-- The three query shapes the enrichment loop issues. -/
inductive ESQuery where
  | byUrlChunk (url : String) (chunk : Int)
  | byUrl (url : String)
  | byContent (content : String)
deriving DecidableEq

/-- An Elasticsearch hit: the `_source` fields the pipeline reads, plus
`_score`; each possibly absent. -/
structure Hit where
  content : Option String
  url : Option String
  title : Option String
  chunk_index : Option Int
  score : Option ℚ
deriving DecidableEq

/-- `CustomElasticsearchStore._create_documents` (`vectorstore.py` lines
19-32) on one hit: an authoritative `Document` whose metadata defaults
`url`/`title` to `""`, `chunk_index` to `0` and `score` to `0.0`.  (The
`**source` spread copies further source fields the pipeline never reads.) -/
def createDocument (h : Hit) : RDoc :=
  .lcdoc (h.content.getD "")
    ⟨some (h.url.getD ""), some (h.title.getD ""),
     some (h.chunk_index.getD 0), some (h.score.getD 0)⟩

/-- The `url` the enrichment loop extracts from a candidate (lines 48-55).
A `Document` with an empty (falsy) metadata dict yields `None` exactly like
an absent key, so the all-`none` metadata embedding covers both. -/
def enrichUrl : RDoc → Option String
  | .lcdoc _ m => m.url
  | .pydict d => d.url

/-- The `chunk_index` the enrichment loop extracts from a candidate. -/
def enrichChunk : RDoc → Option Int
  | .lcdoc _ m => m.chunk_index
  | .pydict d => d.chunk_index

/-- The store lookup query chosen for a candidate (lines 56-76): compound
exact match when both url and chunk_index are non-`None`, single-field url
match when only the url is, else a content match on the candidate's text. -/
def esQueryFor (doc : RDoc) : ESQuery :=
  match enrichUrl doc, enrichChunk doc with
  | some u, some c => .byUrlChunk u c
  | some u, none => .byUrl u
  | none, _ => .byContent (contentOf doc)

/-- Enrich one candidate (lines 77-83): the single top hit, if any, replaces
the candidate with the store's authoritative record; zero hits pass the
original candidate through unchanged. -/
def enrichOne (search : ESQuery → List Hit) (doc : RDoc) : RDoc :=
  match search (esQueryFor doc) with
  | [] => doc
  | h :: _ => createDocument h

/-- The enrichment loop over the final top-K candidates. -/
def enrichDocs (search : ESQuery → List Hit) (docs : List RDoc) : List RDoc :=
  docs.map (enrichOne search)

/-! ## Source metadata in synthesis (`agents/synthesis.py`)

Both synthesis agents build a deduplicated source list from the retrieved
documents.  The `hasattr(doc, 'url')` / `hasattr(doc, 'title')` fallbacks
never fire for the two candidate shapes (neither `Document`s nor dicts have
`url`/`title` attributes), so they are not embedded. -/

/-- A source entry appended to the `sources` list: the (mutated) metadata
dict, with `url`/`title` defaulted; dict-shaped docs contribute only
`url`/`title` keys. -/
structure SrcMeta where
  url : String
  title : String
  chunk_index : Option Int
  score : Option ℚ
deriving DecidableEq

/-- The source entry of one retrieved document (`agents/synthesis.py` lines
49-62): falsy url becomes `"No URL"`, falsy title becomes `"Untitled"`. -/
def srcMetaOf : RDoc → SrcMeta
  | .lcdoc _ m =>
    ⟨(match truthyStr m.url with | some u => u | none => "No URL"),
     (match truthyStr m.title with | some t => t | none => "Untitled"),
     m.chunk_index, m.score⟩
  | .pydict d =>
    ⟨(match truthyStr (some (d.url.getD "")) with | some u => u | none => "No URL"),
     (match truthyStr (some (d.title.getD "Untitled")) with
      | some t => t | none => "Untitled"),
     none, none⟩

/-- The url-deduplication loop over retrieved documents (lines 47-66),
returning the appended sources and the final `seen_urls` set (embedded as a
list, membership-only). -/
def dedupAux : List RDoc → List String → List SrcMeta × List String
  | [], seen => ([], seen)
  | d :: ds, seen =>
    let m := srcMetaOf d
    if m.url ∈ seen then dedupAux ds seen
    else
      let r := dedupAux ds (m.url :: seen)
      (m :: r.1, r.2)

/-- The deduplicated sources of the retrieved documents. -/
def dedupSources (docs : List RDoc) : List SrcMeta :=
  (dedupAux docs []).1

/-- The streaming agent's extra-source loop (`agents/synthesis.py` lines
105-110): extras from `state["sources"]` are appended only when their url was
not already seen.  (`extra.get("url", "No URL")` — the embedded `SrcMeta.url`
field is total, so the default never fires.) -/
def extrasFold : List SrcMeta → List String → List SrcMeta
  | [], _ => []
  | e :: es, seen =>
    if e.url ∈ seen then extrasFold es seen else e :: extrasFold es (e.url :: seen)

/-! ## Prompts

The formatted prompt strings the pipeline sends to the text-generation
model, as produced by the f-strings / `PromptTemplate.format` calls in the
source.  Literal braces of the templates are written `\x7b`/`\x7d` and
apostrophes `\x27`. -/

/-- `QueryClassifierTool.__call__`'s prompt (`workflow.py` lines 16-28). -/
def classifierPrompt (q : String) : String :=
  "\n<|start_of_role|>system<|end_of_role|>You are a classifier for the Valley Air chatbot. Your job is to classify the user\x27s query as either \"air_quality\" or \"general\".\n\nInstructions:\n- Output ONLY one of these two labels: air_quality or general.\n- Output the label as the first line, with no explanation, no extra text, and no formatting.\n- If the query asks about AQI, air quality, air pollution, PM2.5, PM10, ozone, NO2, SO2, CO, smoke, wildfire smoke, burn days, air quality advisories, or pollutant concentrations, output air_quality.\n- If the query is about Valley Air rules, grants, permits, enforcement, regulations, board meetings, sponsorships, rulemaking, appeals, inspections, or any other topic not directly about current air quality or pollutant levels, output general.\n- If the query is ambiguous, output general.\n<|end_of_text|>\n<|start_of_role|>user<|end_of_role|>Query: "
  ++ q ++ "<|end_of_text|>\n<|start_of_role|>assistant<|end_of_role|>\n"

/-- `REWRITE_AND_KEYWORDS_PROMPT.format(query=q)`
(`agents/query_context.py` lines 6-47). -/
def expandPrompt (q : String) : String :=
  "\n<|start_of_role|>system<|end_of_role|>You are an expert search assistant for an air quality and public services knowledge base, specializing in air quality, grants, permits, and Valley Air services. Your task is to rewrite user queries for semantic search and generate effective BM25-style keywords to improve document retrieval.\n\n**Instructions**:\n1. **Query Rewriting**:\n   - Generate three distinct rewritten queries that capture different aspects or intents of the user\x27s query.\n   - Each rewrite should be clear, concise (10-20 words), and rephrased to optimize for semantic search, avoiding verbatim repetition of the original query.\n   - For complex queries with multiple parts (e.g., benefits and eligibility), ensure rewrites address key intents separately or in combination.\n   - Focus on clarity and relevance to air quality, grants, permits, or Valley Air services.\n2. **Keyword Generation**:\n   - Produce 5-7 BM25-style keywords or short phrases (1-3 words each) that are highly relevant to the query\x27s intent.\n   - Keywords should be specific, meaningful terms or phrases, excluding stop words (e.g., \x27what,\x27 \x27are,\x27 \x27and\x27), punctuation, or overly generic terms.\n   - Ensure keywords are optimized for document retrieval, capturing core concepts related to air quality, grants, permits, or Valley Air services.\n3. **Output Format**:\n   - Return a JSON object with two keys: `\"rewrites\"` (list of 3 rewritten queries) and `\"keywords\"` (list of 5-7 keywords/phrases).\n   - Do not include explanations, comments, or extra formatting beyond the JSON output.\n\n**Example**:\nUser Query: \"What grants does Valley Air provide?\"\nOutput:\n\x7b\n  \"rewrites\": [\n    \"Available grants from Valley Air District\",\n    \"Financial assistance programs at Valley Air\",\n    \"Funding opportunities for businesses and residents from Valley Air\"\n  ],\n  \"keywords\": [\n    \"Valley Air grants\",\n    \"financial assistance\",\n    \"funding programs\",\n    \"incentives\",\n    \"business grants\",\n    \"emission reduction funding\"\n  ]\n\x7d\n\n<|start_of_role|>user<|end_of_role|>"
  ++ q ++ "<|end_of_text|>\n<|start_of_role|>assistant<|end_of_role|>\n"

/-- `SYTHESIS_PROMPT.format(context=..., question=...)`
(`agents/synthesis.py` lines 4-32). -/
def synthPrompt (context question : String) : String :=
  "\n<|start_of_role|>system<|end_of_role|>You are Granite, developed by xAI, acting as an AI assistant for the San Joaquin Valley Air Pollution Control District (Valley Air), dedicated to improving air quality in California\x27s Central Valley. Your goal is to provide accurate, concise, and helpful answers based on valleyair.org content and the provided context. Today\x27s date: May 30, 2025.\n\n**Instructions**:\n1. Use the provided context from valleyair.org and any real-time air quality data to answer the user\x27s question in 1-2 sentences.\n2. Adopt a friendly, professional tone, explaining technical terms (e.g., AQI, PM2.5) in simple language for residents, businesses, and community members.\n3. If the question seeks details (e.g., \"benefits\"), include a short bulleted list of specific points (e.g., financial, environmental benefits).\n4. Suggest a follow-up action (e.g., visit valleyair.org/grants, call 559-230-5800).\n5. If context is insufficient, state: \"I don\x27t have enough details to answer fully. Visit valleyair.org or call 559-230-5800.\"\n6. For vague questions, suggest clarification (e.g., \"Can you specify what you mean?\").\n7. For off-topic queries, redirect politely (e.g., \"I focus on air quality and Valley Air services. How can I help?\").\n8. For sensitive topics, respond empathetically and suggest contact (e.g., \"I\x27m sorry for your concern. Contact Valley Air at 559-230-5800.\").\n9. For real-time data (e.g., AQI), direct to valleyair.org/air-quality.\n10. Output only the answer text, excluding structural markers or tokens.\n\n**Example**:\nContext: Valley Air offers grants for clean vehicles and equipment.\nUser Question: What grants does Valley Air provide?\nOutput: Valley Air provides grants for clean vehicles and equipment to reduce emissions. Visit valleyair.org/grants for details.\n<|end_of_text|>\n<|start_of_role|>user<|end_of_role|>Context:\n"
  ++ context ++ "\n\nUser question: " ++ question
  ++ "<|end_of_text|>\n<|start_of_role|>assistant<|end_of_role|>\n"

/-- The location-extraction prompt (`agents/air_quality_agent.py` lines
19-23). -/
def locationPrompt (q : String) : String :=
  "\n<|start_of_role|>system<|end_of_role|>You are a location extractor for the Valley Air chatbot. Given a user query, extract the city, county, or zip code mentioned. Output a single JSON object with keys \x27city\x27, \x27county\x27, and \x27zip\x27. If not present, leave the value as an empty string. Output ONLY the JSON object, with NO Markdown formatting, NO code blocks, NO explanation, and NO examples.<|end_of_text|>\n<|start_of_role|>user<|end_of_role|>Query: "
  ++ q ++ "<|end_of_text|>\n<|start_of_role|>assistant<|end_of_role|>\n"

/-! ## Air-quality data and collaborators

Per spec §1 the domain lookup is an external collaborator
(`geocode(locationText) -> Location?`, measurements fetch, validity check);
`OpenMeteoTools` wraps HTTP calls to it.  Only the fields the workflow reads
are embedded; the numeric measurement values are embedded as the strings
they render to inside the f-strings that consume them. -/

/-- A geocoded location: the fields the workflow reads. -/
structure Geo where
  name : String
  latitude : ℚ
  longitude : ℚ
deriving DecidableEq

/-- The air-quality summary dict (fields as rendered by f-string
interpolation). -/
structure AQSummary where
  aqi : String
  aqi_category : String
  pm2_5 : String
  ozone : String
  no2 : String
  so2 : String
  co : String
deriving DecidableEq

/-- The hourly timeseries payload; its pandas DataFrame presentation in the
streaming event is elided (it carries the same hourly data). -/
abbrev TimeSeries := List (String × List String)

/-- `get_air_quality`'s result: `{"summary": ..., "timeseries": ...}`. -/
structure AQResult where
  summary : AQSummary
  timeseries : TimeSeries
deriving DecidableEq

/-- The location-extraction JSON object parsed from the model response
(`json.loads` after markdown-fence stripping and brace extraction; keys
read by `dict.get`, so each possibly absent). -/
structure LocJson where
  city : Option String
  county : Option String
  zip : Option String
deriving DecidableEq

/-- `", ".join([f"NO2: ...", f"SO2: ...", f"CO: ..."])`
(`agents/air_quality_agent.py` lines 64-68). -/
def otherPollutants (aq : AQSummary) : String :=
  "NO2: " ++ aq.no2 ++ " ppb, SO2: " ++ aq.so2 ++ " ppb, CO: " ++ aq.co ++ " ppm"

/-- `summary_prompt.format(...)` (`agents/air_quality_agent.py` lines
55-76). -/
def summaryPrompt (location : String) (aq : AQSummary) : String :=
  "\n<|start_of_role|>system<|end_of_role|>You are an air quality assistant for the Valley Air chatbot. Summarize the following air quality data in a clear, user-friendly way for residents of California\x27s Central Valley. Explain technical terms simply. Output only the answer, with no extra text or formatting.<|end_of_text|>\n<|start_of_role|>user<|end_of_role|>Location: "
  ++ location ++ "\nAQI: " ++ aq.aqi ++ " (" ++ aq.aqi_category ++ ")\nPM2.5: "
  ++ aq.pm2_5 ++ " µg/m³\nOzone: " ++ aq.ozone ++ " ppb\nOther pollutants: "
  ++ otherPollutants aq
  ++ "<|end_of_text|>\n<|start_of_role|>assistant<|end_of_role|>\n"

/-- The real-time block prepended to the synthesis context
(`agents/synthesis.py` lines 41-43 and 79-81). -/
def aqContextOf (aq : AQSummary) : String :=
  "\n\n[Real-time Air Quality]\nAQI: " ++ aq.aqi ++ " (" ++ aq.aqi_category
  ++ ")\nPM2.5: " ++ aq.pm2_5 ++ " µg/m³\nOzone: " ++ aq.ozone
  ++ " ppb\nSource: https://open-meteo.com/en/docs/air-quality-api"

/-- The default location request message
(`agents/air_quality_agent.py` line 98). -/
def defaultLocMsg : String :=
  "Please enter a city, county, or zip code in the San Joaquin Valley:"

/-- The external collaborators of one workflow run, per the spec's
collaborator contracts (§6), plus the standard-library JSON parses whose
code is outside src/: `invoke`/`streamChunks` are the text-generation model,
`vectorRetrieve` the document store's vector leg (`vector_retriever.invoke`),
`crossEncode` the cross-encoder, `esSearch` the store lookup used by
enrichment, `corpus` the module-level corpus snapshot, `parseExpandJson` /
`parseLocJson` the outcomes of `json.loads` on the expander / location
responses, and `geocode` / `validateLoc` / `airQuality` the domain lookup
(`OpenMeteoTools`). -/
structure Collab where
  invoke : String → String
  streamChunks : String → List String
  vectorRetrieve : String → List RDoc
  crossEncode : List (String × String) → List ℚ
  esSearch : ESQuery → List Hit
  corpus : List PyDoc
  parseExpandJson : String → Option ExpandParsed
  parseLocJson : String → Option LocJson
  geocode : String → Option Geo
  validateLoc : Geo → Bool
  airQuality : ℚ → ℚ → Option AQResult

/-! ## Workflow state and events -/

/-- The workflow state dict (`AgentState`).  Keys that a run may leave unset
are `Option`-valued; `user_query` and `messages` are set at state creation
(`workflow.py` lines 100 and 124) and every `state.get("user_query", ...)`
in the pipeline therefore reads the present key. -/
structure WfState where
  user_query : String
  messages : List String := []
  query_type : Option String := none
  rewrites : Option (List String) := none
  keywords : Option (List String) := none
  retrieved_docs : Option (List RDoc) := none
  air_quality_data : Option AQSummary := none
  air_quality_timeseries : Option TimeSeries := none
  location : Option Geo := none
  sources : Option (List SrcMeta) := none
  answer : Option String := none
  needs_location : Bool := false
  location_error : Option String := none
  location_input : Option String := none
deriving DecidableEq

/-- The streaming events, tagged by their `type` discriminant (spec §6).
`done` carries the extra `answer` key only in the unclassified fallback
(`workflow.py` line 151). -/
inductive Event where
  | tool (rewrites : List String) (keywords : List String)
  | queryContextDone (rewrites : List String) (keywords : List String)
  | token (t : String)
  | answer (content : String) (sources : List SrcMeta)
  | done (sources : List SrcMeta) (answer : Option String)
  | locationNeeded (message : String)
  | airQuality (data : TimeSeries)
deriving DecidableEq

/-! ## Agents -/

/-- `QueryClassifierTool.__call__` (`workflow.py` lines 13-39): classify and
record the label; `none` embeds the `IndexError` on an empty stripped
response. -/
def queryClassifier (C : Collab) (st : WfState) : Option WfState :=
  (classifyLabel (C.invoke (classifierPrompt st.user_query))).map
    (fun lab => {st with query_type := some lab})

/-- `QueryContextAgent.stream` (`agents/query_context.py` lines 76-93) with
`callback_handler=None`: the two yielded events and the computed
rewrites/keywords. -/
def queryAgentStream (C : Collab) (st : WfState) :
    List Event × List String × List String :=
  let resp := C.invoke (expandPrompt st.user_query)
  let rk := expandResult (C.parseExpandJson resp) st.user_query
  ([.tool rk.1 rk.2, .queryContextDone rk.1 rk.2], rk.1, rk.2)

/-- The harvesting loop both workflows run over the expander's event stream
(`workflow.py` lines 108-112 and 135-140): the last non-`None`
`rewrites`/`keywords` carried by any event. -/
def harvest (events : List Event) :
    Option (List String) × Option (List String) :=
  events.foldl (fun acc e =>
    match e with
    | .tool rw kw => (some rw, some kw)
    | .queryContextDone rw kw => (some rw, some kw)
    | _ => acc) (none, none)

/-- `if rewrites is not None: state["rewrites"] = rewrites` (and likewise for
keywords) — `workflow.py` lines 113-116 and 141-144. -/
def applyHarvest (st : WfState)
    (h : Option (List String) × Option (List String)) : WfState :=
  let st1 := match h.1 with
    | some rw => {st with rewrites := some rw}
    | none => st
  match h.2 with
  | some kw => {st1 with keywords := some kw}
  | none => st1

/-- The fuse-and-rerank core of `SpecializedRetrievalAgent.__call__`
(`agents/retrieval.py` lines 22-44): semantic leg, fusion with the BM25
docs, cross-encoder scoring of the (query, passage) pairs — the query being
`state.get("user_query", rewrites[0] if rewrites else "")`, which reads the
always-present `user_query` key of the workflow states — and selection of
the top-4 candidates (`none` embeds an out-of-range `IndexError`). -/
def retrievalTop (C : Collab) (st : WfState) (bmdocs : List PyDoc)
    (r0 : String) : Option (List RDoc) :=
  let vector_results := C.vectorRetrieve r0
  let combined := (fuse vector_results bmdocs).map Prod.snd
  let pairs := rerankPairs st.user_query combined
  let cscores := C.crossEncode pairs
  ((sortIndicesDesc cscores).take 4).mapM (fun i => combined.get? i)

/-- `SpecializedRetrievalAgent.__call__` (`agents/retrieval.py` lines
14-86): BM25 leg over the corpus snapshot, semantic leg on the first rewrite
(`rewrites[0]` raising `IndexError`, embedded as `none`, when there is no
rewrite), fusion, rerank and enrichment of the final top-4. -/
def retrievalCall (C : Collab) (st : WfState) : Option WfState :=
  match bm25TopDocs C.corpus (st.keywords.getD []),
      (st.rewrites.getD []).head? with
  | some bmdocs, some r0 =>
    match retrievalTop C st bmdocs r0 with
    | some top => some {st with retrieved_docs := some (enrichDocs C.esSearch top)}
    | none => none
  | _, _ => none

/-- The synthesis context string, built identically by both synthesis agents
(`agents/synthesis.py` lines 38-43 and 76-81): the retrieved documents'
contents joined with blank lines, with the real-time air-quality block
prepended when present (a truthy `air_quality_data`). -/
def synthContext (st : WfState) : String :=
  match st.air_quality_data with
  | some aq => aqContextOf aq ++ "\n" ++
      String.intercalate "\n\n" ((st.retrieved_docs.getD []).map contentOf)
  | none => String.intercalate "\n\n" ((st.retrieved_docs.getD []).map contentOf)

/-- `ResponseSynthesisAgent.__call__` (`agents/synthesis.py` lines 37-70):
context from the retrieved documents, blocking generation, deduplicated
sources, and the blocking agent's unconditional
`sources.extend(state["sources"])` when that key holds a non-empty list. -/
def synthesisCall (C : Collab) (st : WfState) : WfState :=
  let ans := C.invoke (synthPrompt (synthContext st) st.user_query)
  let srcs0 := dedupSources (st.retrieved_docs.getD [])
  let srcs := match st.sources with
    | some l => if l = [] then srcs0 else srcs0 ++ l
    | none => srcs0
  {st with answer := some ans, sources := some srcs}

/-- Concatenation of streamed chunks (`answer += chunk`). -/
def joinChunks (chunks : List String) : String := chunks.foldl (· ++ ·) ""

/-- `StreamingResponseSynthesisAgent.stream` (`agents/synthesis.py` lines
75-120) with `callback_handler=None`: token events for each streamed chunk,
then the `answer` event and the `done` event with the deduplicated sources
(extras from `state["sources"]` deduplicated against the already-seen
urls). -/
def streamingSynthEvents (C : Collab) (st : WfState) : List Event :=
  let prompt := synthPrompt (synthContext st) st.user_query
  let dd := dedupAux (st.retrieved_docs.getD []) []
  let srcs := dd.1 ++ (match st.sources with
    | some l => if l = [] then [] else extrasFold l dd.2
    | none => [])
  let chunks := C.streamChunks prompt
  chunks.map .token ++ [.answer (joinChunks chunks) srcs, .done srcs none]

/-- `AirQualityAgent.__call__` (`agents/air_quality_agent.py` lines 14-91):
location extraction via the model, geocoding, validity check and measurement
fetch; every failure path (parse error — the `except` branch —, no truthy
location, geocoding miss, out-of-area, no measurements) returns the state
with `needs_location` set. -/
def airQualityCall (C : Collab) (st : WfState) : WfState :=
  let uq := match st.location_input with
    | some li => if li = "" then st.user_query else li
    | none => st.user_query
  let resp := C.invoke (locationPrompt uq)
  match C.parseLocJson resp with
  | none => {st with needs_location := true}
  | some info =>
    match truthyStr info.city <|> truthyStr info.county <|> truthyStr info.zip with
    | none => {st with needs_location := true}
    | some ls =>
      match C.geocode ls with
      | none => {st with needs_location := true}
      | some geo =>
        if C.validateLoc geo then
          match C.airQuality geo.latitude geo.longitude with
          | some aqr =>
            {st with
              answer := some (C.invoke (summaryPrompt geo.name aqr.summary)),
              air_quality_data := some aqr.summary,
              air_quality_timeseries := some aqr.timeseries,
              location := some geo,
              sources := some []}
          | none => {st with needs_location := true}
        else
          {st with
            needs_location := true,
            location_error := some ("Sorry, " ++ ls
              ++ " is not in the San Joaquin Valley. Please enter a city, county, or zip code within the valley.")}

/-- `AirQualityAgent.stream` (`agents/air_quality_agent.py` lines 93-117):
either a single `location_needed` event, or an `air_quality` data event
(when the truthy timeseries is present) followed by the `answer` event.
No `done` event is ever emitted on this branch. -/
def airStreamEvents (C : Collab) (st : WfState) : List Event :=
  let result := airQualityCall C st
  if result.needs_location then
    let msg := match result.location_error with
      | some e => if e = "" then defaultLocMsg else e
      | none => defaultLocMsg
    [.locationNeeded msg]
  else
    (match result.air_quality_timeseries with
     | some ts => if ts = [] then [] else [.airQuality ts]
     | none => []) ++
    [.answer (result.answer.getD "") (result.sources.getD [])]

/-! ## The two execution modes (`workflow.py` lines 99-151) -/

/-- `{"user_query": user_query, "messages": []}`. -/
def workflowInit (q : String) : WfState := {user_query := q}

/-- `run_multiagent_workflow` (`workflow.py` lines 99-121): blocking mode,
returning `(result.get("answer", ""), result.get("sources", []))`; `none`
embeds an uncaught exception. -/
def runWorkflow (C : Collab) (q : String) : Option (String × List SrcMeta) :=
  match queryClassifier C (workflowInit q) with
  | none => none
  | some st1 =>
    if st1.query_type = some "air_quality" then
      let res := synthesisCall C (airQualityCall C st1)
      some (res.answer.getD "", res.sources.getD [])
    else if st1.query_type = some "general" then
      let st2 := applyHarvest st1 (harvest (queryAgentStream C st1).1)
      match retrievalCall C st2 with
      | none => none
      | some st3 =>
        let res := synthesisCall C st3
        some (res.answer.getD "", res.sources.getD [])
    else
      some ("Sorry, I could not classify your query.", [])

/-- `run_multiagent_workflow_streaming` (`workflow.py` lines 123-151) with
`callback_handler=None`: the full event sequence a consumer that drains the
generator observes; `none` embeds an uncaught exception. -/
def runWorkflowStreaming (C : Collab) (q : String) : Option (List Event) :=
  match queryClassifier C (workflowInit q) with
  | none => none
  | some st1 =>
    if st1.query_type = some "air_quality" then
      some (airStreamEvents C st1)
    else if st1.query_type = some "general" then
      let qa := queryAgentStream C st1
      let st2 := applyHarvest st1 (harvest qa.1)
      match retrievalCall C st2 with
      | none => none
      | some st3 => some (qa.1 ++ streamingSynthEvents C st3)
    else
      some [.done [] (some "Sorry, I could not classify your query.")]

/-! ## Statement-support definitions

Named states, relations and concrete collaborator bundles the theorems below
refer to. -/

/-- The rerank ordering relation: strictly greater score first, equal scores
in insertion-position order (the stable tie-break). -/
def rankRel (p q : ℕ × ℚ) : Prop := q.2 < p.2 ∨ (p.2 = q.2 ∧ p.1 < q.1)

/-- The post-classifier state of the general branch. -/
def generalSt1 (q : String) : WfState :=
  {workflowInit q with query_type := some "general"}

/-- The state both execution modes hand to retrieval on the general branch
(after the shared harvesting loop over the expander's events). -/
def generalSt2 (C : Collab) (q : String) : WfState :=
  applyHarvest (generalSt1 q) (harvest (queryAgentStream C (generalSt1 q)).1)

/-- The collaborator responses of the mode-divergence counterexample: the
classifier prompt for the query `"cex"` is answered `"air_quality"`, every
other generation call `"x"`. -/
def cexInvoke (p : String) : String :=
  if p = classifierPrompt "cex" then "air_quality" else "x"

/-- The mode-divergence counterexample's collaborator bundle: streamed
chunks are the singleton of the blocking output (so both modes see the same
generation outputs), and the location extraction fails to parse (the air
agent's `except` branch). -/
def cexCollab : Collab :=
  ⟨cexInvoke, fun p => [cexInvoke p], fun _ => [], fun _ => [], fun _ => [],
   [], fun _ => none, fun _ => none, fun _ => none, fun _ => false,
   fun _ _ => none⟩

/-! ## Dictionary and fusion lemmas -/

@[simp] theorem keysOf_nil : keysOf [] = [] := rfl

@[simp] theorem keysOf_cons (a : String) (b : RDoc) (m : CandMap) :
    keysOf ((a, b) :: m) = a :: keysOf m := rfl

theorem length_eq_keysOf_length (m : CandMap) : m.length = (keysOf m).length :=
  (List.length_map _ _).symm

@[simp] theorem dictInsert_nil (k : String) (v : RDoc) :
    dictInsert k v [] = [(k, v)] := rfl

theorem dictInsert_cons (k : String) (v : RDoc) (a : String) (b : RDoc)
    (m : CandMap) :
    dictInsert k v ((a, b) :: m) =
      if a = k then (k, v) :: m else (a, b) :: dictInsert k v m := rfl

@[simp] theorem lookupKey_nil (a : String) : lookupKey a [] = none := rfl

theorem lookupKey_cons (a k : String) (b : RDoc) (m : CandMap) :
    lookupKey a ((k, b) :: m) = if k = a then some b else lookupKey a m := rfl

theorem keysOf_dictInsert_of_mem {k : String} (v : RDoc) {m : CandMap}
    (h : k ∈ keysOf m) : keysOf (dictInsert k v m) = keysOf m := by
  induction m with
  | nil => simp at h
  | cons p rest ih =>
    obtain ⟨a, b⟩ := p
    by_cases hk : a = k
    · subst hk; simp [dictInsert_cons]
    · have hrest : k ∈ keysOf rest := by
        rcases List.mem_cons.mp (by simpa using h) with h1 | h1
        · exact absurd h1.symm hk
        · exact h1
      simp [dictInsert_cons, hk, ih hrest]

theorem keysOf_dictInsert_of_not_mem {k : String} (v : RDoc) {m : CandMap}
    (h : k ∉ keysOf m) : keysOf (dictInsert k v m) = keysOf m ++ [k] := by
  induction m with
  | nil => simp
  | cons p rest ih =>
    obtain ⟨a, b⟩ := p
    have hk : a ≠ k := by
      intro he; exact h (by simp [he])
    have hrest : k ∉ keysOf rest := by
      intro hm; exact h (by simp [hm])
    simp [dictInsert_cons, hk, ih hrest]

theorem mem_keysOf_dictInsert {a k : String} (v : RDoc) (m : CandMap) :
    a ∈ keysOf (dictInsert k v m) ↔ a = k ∨ a ∈ keysOf m := by
  by_cases h : k ∈ keysOf m
  · rw [keysOf_dictInsert_of_mem v h]
    constructor
    · exact Or.inr
    · rintro (rfl | hm)
      · exact h
      · exact hm
  · rw [keysOf_dictInsert_of_not_mem v h]
    simp [or_comm]

theorem nodup_keysOf_dictInsert {k : String} (v : RDoc) {m : CandMap}
    (h : (keysOf m).Nodup) : (keysOf (dictInsert k v m)).Nodup := by
  by_cases hm : k ∈ keysOf m
  · rwa [keysOf_dictInsert_of_mem v hm]
  · rw [keysOf_dictInsert_of_not_mem v hm]
    refine List.Nodup.append h (by simp) ?_
    intro x hx hx'
    rcases List.mem_singleton.mp hx' with rfl
    exact hm hx

theorem lookupKey_dictInsert_ne {a k : String} (v : RDoc) (m : CandMap)
    (h : a ≠ k) : lookupKey a (dictInsert k v m) = lookupKey a m := by
  induction m with
  | nil =>
    have hka : ¬(k = a) := fun he => h he.symm
    simp [lookupKey_cons, hka]
  | cons p rest ih =>
    obtain ⟨x, b⟩ := p
    by_cases hk : x = k
    · subst hk
      have hxa : ¬(x = a) := fun he => h he.symm
      simp [dictInsert_cons, lookupKey_cons, hxa]
    · by_cases hxa : x = a
      · simp [dictInsert_cons, hk, lookupKey_cons, hxa, h]
      · simp [dictInsert_cons, hk, lookupKey_cons, hxa, ih]

theorem length_dictInsert_of_mem {k : String} (v : RDoc) {m : CandMap}
    (h : k ∈ keysOf m) : (dictInsert k v m).length = m.length := by
  rw [length_eq_keysOf_length, length_eq_keysOf_length m,
    keysOf_dictInsert_of_mem v h]

theorem length_dictInsert_of_not_mem {k : String} (v : RDoc) {m : CandMap}
    (h : k ∉ keysOf m) : (dictInsert k v m).length = m.length + 1 := by
  rw [length_eq_keysOf_length, length_eq_keysOf_length m,
    keysOf_dictInsert_of_not_mem v h]
  simp

theorem length_dictInsert_le (k : String) (v : RDoc) (m : CandMap) :
    (dictInsert k v m).length ≤ m.length + 1 := by
  by_cases h : k ∈ keysOf m
  · rw [length_dictInsert_of_mem v h]; omega
  · rw [length_dictInsert_of_not_mem v h]

theorem lexStep_of_url_mem {d : PyDoc} {u : String}
    (hu : truthyStr d.url = some u) {m : CandMap} (hm : keyMem u m) :
    lexStep m d = m := by
  simp [lexStep, hu, hm]

theorem lexStep_of_url_not_mem {d : PyDoc} {u : String}
    (hu : truthyStr d.url = some u) {m : CandMap} (hm : ¬ keyMem u m) :
    lexStep m d = dictInsert u (.pydict d) m := by
  simp [lexStep, hu, hm]

theorem lexStep_of_no_url {d : PyDoc} (hu : truthyStr d.url = none)
    (m : CandMap) : lexStep m d = dictInsert (bm25Key d) (.pydict d) m := by
  simp [lexStep, hu]

theorem lexFold_cons (d : PyDoc) (ds : List PyDoc) (m : CandMap) :
    lexFold (d :: ds) m = lexFold ds (lexStep m d) := rfl

theorem mem_keysOf_lexStep {a : String} (m : CandMap) (d : PyDoc)
    (h : a ∈ keysOf m) : a ∈ keysOf (lexStep m d) := by
  cases hu : truthyStr d.url with
  | some u =>
    by_cases hm : keyMem u m
    · rwa [lexStep_of_url_mem hu hm]
    · rw [lexStep_of_url_not_mem hu hm]
      exact (mem_keysOf_dictInsert _ _).mpr (Or.inr h)
  | none =>
    rw [lexStep_of_no_url hu]
    exact (mem_keysOf_dictInsert _ _).mpr (Or.inr h)

theorem mem_keysOf_lexFold {a : String} (L : List PyDoc) (m : CandMap)
    (h : a ∈ keysOf m) : a ∈ keysOf (lexFold L m) := by
  induction L generalizing m with
  | nil => exact h
  | cons d ds ih => exact ih _ (mem_keysOf_lexStep m d h)

theorem mem_keysOf_fuseSemFrom {a : String} (S : List RDoc) (i : ℕ)
    (acc : CandMap) (h : a ∈ keysOf acc) :
    a ∈ keysOf (fuseSemFrom i S acc) := by
  induction S generalizing i acc with
  | nil => exact h
  | cons d ds ih =>
    exact ih _ _ ((mem_keysOf_dictInsert _ _).mpr (Or.inr h))

theorem nodup_keysOf_lexFold (L : List PyDoc) (m : CandMap)
    (h : (keysOf m).Nodup) : (keysOf (lexFold L m)).Nodup := by
  induction L generalizing m with
  | nil => exact h
  | cons d ds ih =>
    refine ih _ ?_
    cases hu : truthyStr d.url with
    | some u =>
      by_cases hm : keyMem u m
      · rwa [lexStep_of_url_mem hu hm]
      · rw [lexStep_of_url_not_mem hu hm]
        exact nodup_keysOf_dictInsert _ h
    | none =>
      rw [lexStep_of_no_url hu]
      exact nodup_keysOf_dictInsert _ h

theorem nodup_keysOf_fuseSemFrom (S : List RDoc) (i : ℕ) (acc : CandMap)
    (h : (keysOf acc).Nodup) : (keysOf (fuseSemFrom i S acc)).Nodup := by
  induction S generalizing i acc with
  | nil => exact h
  | cons d ds ih => exact ih _ _ (nodup_keysOf_dictInsert _ h)

theorem semKey_mem_fuseSemFrom (S : List RDoc) :
    ∀ (j i : ℕ) (d : RDoc) (acc : CandMap), S.get? j = some d →
      semKey (i + j) d ∈ keysOf (fuseSemFrom i S acc) := by
  induction S with
  | nil => intro j i d acc h; simp at h
  | cons e es ih =>
    intro j i d acc h
    cases j with
    | zero =>
      simp only [List.get?] at h
      cases h
      rw [Nat.add_zero]
      show semKey i e ∈ keysOf (fuseSemFrom (i + 1) es (dictInsert (semKey i e) e acc))
      exact mem_keysOf_fuseSemFrom _ _ _
        ((mem_keysOf_dictInsert _ _).mpr (Or.inl rfl))
    | succ j' =>
      simp only [List.get?] at h
      have h2 := ih j' (i + 1) d (dictInsert (semKey i e) e acc) h
      have hn : i + 1 + j' = i + (j' + 1) := by omega
      rw [hn] at h2
      exact h2

theorem length_lexStep_le (m : CandMap) (d : PyDoc) :
    (lexStep m d).length ≤ m.length + 1 := by
  cases hu : truthyStr d.url with
  | some u =>
    by_cases hm : keyMem u m
    · rw [lexStep_of_url_mem hu hm]; omega
    · rw [lexStep_of_url_not_mem hu hm]
      exact length_dictInsert_le _ _ m
  | none =>
    rw [lexStep_of_no_url hu]
    exact length_dictInsert_le _ _ m

theorem length_lexFold_le (L : List PyDoc) (m : CandMap) :
    (lexFold L m).length ≤ m.length + L.length := by
  induction L generalizing m with
  | nil => simp [lexFold]
  | cons d ds ih =>
    have h1 := length_lexStep_le m d
    have h2 := ih (lexStep m d)
    rw [lexFold_cons]
    simp only [List.length_cons]
    omega

theorem length_fuseSemFrom_le (S : List RDoc) :
    ∀ (i : ℕ) (acc : CandMap),
      (fuseSemFrom i S acc).length ≤ acc.length + S.length := by
  induction S with
  | nil => intro i acc; simp [fuseSemFrom]
  | cons d ds ih =>
    intro i acc
    have h1 := length_dictInsert_le (semKey i d) d acc
    have h2 := ih (i + 1) (dictInsert (semKey i d) d acc)
    show (fuseSemFrom (i + 1) ds (dictInsert (semKey i d) d acc)).length ≤ _
    simp only [List.length_cons]
    omega

theorem lookupKey_lexFold_of_no_collision (u : String) (L : List PyDoc) :
    ∀ m : CandMap, u ∈ keysOf m →
    (∀ d ∈ L, truthyStr d.url = none → bm25Key d ≠ u) →
    lookupKey u (lexFold L m) = lookupKey u m := by
  induction L with
  | nil => intro m _ _; rfl
  | cons d ds ih =>
    intro m hmem hno
    have hds : ∀ d' ∈ ds, truthyStr d'.url = none → bm25Key d' ≠ u :=
      fun d' hd' => hno d' (List.mem_cons_of_mem d hd')
    rw [lexFold_cons]
    cases hu : truthyStr d.url with
    | some u' =>
      by_cases hm : keyMem u' m
      · rw [lexStep_of_url_mem hu hm]
        exact ih m hmem hds
      · rw [lexStep_of_url_not_mem hu hm]
        have hne : u ≠ u' := by
          rintro rfl; exact hm hmem
        rw [ih _ ((mem_keysOf_dictInsert _ _).mpr (Or.inr hmem)) hds,
          lookupKey_dictInsert_ne _ _ hne]
    | none =>
      have hne : u ≠ bm25Key d :=
        fun he => (hno d (List.mem_cons_self d ds) hu) he.symm
      rw [lexStep_of_no_url hu]
      rw [ih _ ((mem_keysOf_dictInsert _ _).mpr (Or.inr hmem)) hds,
        lookupKey_dictInsert_ne _ _ hne]

theorem fuseSemFrom_append_one (S : List RDoc) (c : RDoc) :
    ∀ (i : ℕ) (acc : CandMap),
      fuseSemFrom i (S ++ [c]) acc =
        dictInsert (semKey (i + S.length) c) c (fuseSemFrom i S acc) := by
  induction S with
  | nil => intro i acc; simp [fuseSemFrom]
  | cons d ds ih =>
    intro i acc
    show fuseSemFrom (i + 1) (ds ++ [c]) (dictInsert (semKey i d) d acc) = _
    rw [ih]
    have hn : i + 1 + ds.length = i + (d :: ds).length := by
      simp only [List.length_cons]; omega
    rw [hn]
    rfl

theorem lexFold_append (L₁ L₂ : List PyDoc) (m : CandMap) :
    lexFold (L₁ ++ L₂) m = lexFold L₂ (lexFold L₁ m) := by
  induction L₁ generalizing m with
  | nil => rfl
  | cons d ds ih => exact ih _

/-- Folding the lexical loop over an accumulator that carries one extra,
never-touched key yields exactly one extra key. -/
theorem keysOf_lexFold_perm_insert (L : List PyDoc) :
    ∀ (m₁ m₂ : CandMap) (k : String),
    (keysOf m₂).Perm (k :: keysOf m₁) →
    k ∉ keysOf (lexFold L m₁) →
    (keysOf (lexFold L m₂)).Perm (k :: keysOf (lexFold L m₁)) := by
  induction L with
  | nil => intro m₁ m₂ k hperm _; exact hperm
  | cons d ds ih =>
    intro m₁ m₂ k hperm hk
    rw [lexFold_cons] at hk ⊢
    rw [lexFold_cons]
    cases hu : truthyStr d.url with
    | some u =>
      have hne : u ≠ k := by
        rintro rfl
        apply hk
        apply mem_keysOf_lexFold
        by_cases hm : keyMem u m₁
        · rw [lexStep_of_url_mem hu hm]; exact hm
        · rw [lexStep_of_url_not_mem hu hm]
          exact (mem_keysOf_dictInsert _ _).mpr (Or.inl rfl)
      by_cases hm : keyMem u m₁
      · have hm₂ : keyMem u m₂ :=
          hperm.mem_iff.mpr (List.mem_cons_of_mem _ hm)
        rw [lexStep_of_url_mem hu hm₂, lexStep_of_url_mem hu hm]
        rw [lexStep_of_url_mem hu hm] at hk
        exact ih m₁ m₂ k hperm hk
      · have hm₂ : ¬ keyMem u m₂ := by
          intro hmem
          rcases List.mem_cons.mp (hperm.mem_iff.mp hmem) with h | h
          · exact hne h
          · exact hm h
        rw [lexStep_of_url_not_mem hu hm₂, lexStep_of_url_not_mem hu hm]
        rw [lexStep_of_url_not_mem hu hm] at hk
        refine ih _ _ k ?_ hk
        rw [keysOf_dictInsert_of_not_mem _ hm₂, keysOf_dictInsert_of_not_mem _ hm]
        exact hperm.append_right [u]
    | none =>
      have hne : bm25Key d ≠ k := by
        rintro he
        apply hk
        apply mem_keysOf_lexFold
        rw [lexStep_of_no_url hu, he]
        exact (mem_keysOf_dictInsert _ _).mpr (Or.inl rfl)
      rw [lexStep_of_no_url hu] at hk ⊢
      rw [lexStep_of_no_url hu]
      by_cases hm : bm25Key d ∈ keysOf m₁
      · have hm₂ : bm25Key d ∈ keysOf m₂ :=
          hperm.mem_iff.mpr (List.mem_cons_of_mem _ hm)
        refine ih _ _ k ?_ hk
        rw [keysOf_dictInsert_of_mem _ hm₂, keysOf_dictInsert_of_mem _ hm]
        exact hperm
      · have hm₂ : bm25Key d ∉ keysOf m₂ := by
          intro hmem
          rcases List.mem_cons.mp (hperm.mem_iff.mp hmem) with h | h
          · exact hne h
          · exact hm h
        refine ih _ _ k ?_ hk
        rw [keysOf_dictInsert_of_not_mem _ hm₂, keysOf_dictInsert_of_not_mem _ hm]
        exact hperm.append_right [bm25Key d]

theorem bm25Key_mem_lexFold {d : PyDoc} (hu : truthyStr d.url = none)
    (L : List PyDoc) (hd : d ∈ L) (m : CandMap) :
    bm25Key d ∈ keysOf (lexFold L m) := by
  induction L generalizing m with
  | nil => cases hd
  | cons e es ih =>
    rcases List.mem_cons.mp hd with rfl | hd'
    · rw [lexFold_cons]
      apply mem_keysOf_lexFold
      rw [lexStep_of_no_url hu]
      exact (mem_keysOf_dictInsert _ _).mpr (Or.inl rfl)
    · rw [lexFold_cons]; exact ih hd' _

/-! ## Claim C1 — fusion deduplication invariant -/

/-- **C1, counterexample.**  The claim's "the semantic-origin candidate is
kept" clause fails on the code: the lexical candidate `lexA` shares the URL
`"bm25_0"` with a semantic candidate and is dropped, but the url-less lexical
candidate `lexB` with object identity `0` is assigned unconditionally under
its synthetic key `"bm25_" + id`, which equals that URL, overwriting the
semantic-origin candidate in `all_docs`. -/
theorem fusion_dedup_semantic_kept_counterexample :
    lookupKey "bm25_0"
      (fuseSemFrom 0 [RDoc.lcdoc "sem" ⟨some "bm25_0", none, none, none⟩] []) =
      some (RDoc.lcdoc "sem" ⟨some "bm25_0", none, none, none⟩) ∧
    truthyStr (semUrl (RDoc.lcdoc "sem" ⟨some "bm25_0", none, none, none⟩)) =
      some "bm25_0" ∧
    truthyStr (⟨"lexA", some "bm25_0", none, none, 5⟩ : PyDoc).url =
      some "bm25_0" ∧
    lookupKey "bm25_0"
      (fuse [RDoc.lcdoc "sem" ⟨some "bm25_0", none, none, none⟩]
        [⟨"lexA", some "bm25_0", none, none, 5⟩,
         ⟨"lexB", none, none, none, 0⟩]) =
      some (RDoc.pydict ⟨"lexB", none, none, none, 0⟩) ∧
    RDoc.pydict ⟨"lexB", none, none, none, 0⟩ ≠
      RDoc.lcdoc "sem" ⟨some "bm25_0", none, none, none⟩ := by decide

/-- **C1, amended.**  For every semantic list `S` and lexical list `L`:
the fused map's keys are duplicate-free and contain every non-empty semantic
URL (so each URL occurring in `S` is a key exactly once); provided no
url-less lexical candidate's synthetic `"bm25_" + id` key coincides with a
semantic key, every semantic key's binding survives the lexical loop
unchanged (lexical candidates whose URL is already present are dropped, the
semantic-origin candidate is kept, scores are not combined); and the fused
map's size is at most `|S| + |L|`. -/
theorem fusion_dedup_invariant (S : List RDoc) (L : List PyDoc) :
    (keysOf (fuse S L)).Nodup ∧
    (∀ d ∈ S, ∀ u, truthyStr (semUrl d) = some u → u ∈ keysOf (fuse S L)) ∧
    ((∀ d ∈ L, truthyStr d.url = none →
        bm25Key d ∉ keysOf (fuseSemFrom 0 S [])) →
      ∀ u ∈ keysOf (fuseSemFrom 0 S []),
        lookupKey u (fuse S L) = lookupKey u (fuseSemFrom 0 S [])) ∧
    (fuse S L).length ≤ S.length + L.length := by
  refine ⟨?_, ?_, ?_, ?_⟩
  · exact nodup_keysOf_lexFold _ _
      (nodup_keysOf_fuseSemFrom _ _ _ (by simp))
  · intro d hd u hu
    obtain ⟨j, hj⟩ := List.get?_of_mem hd
    have hmem := semKey_mem_fuseSemFrom S j 0 d ([] : CandMap) hj
    rw [Nat.zero_add] at hmem
    have hkey : semKey j d = u := by simp [semKey, hu]
    rw [hkey] at hmem
    exact mem_keysOf_lexFold _ _ hmem
  · intro hno u hu
    refine lookupKey_lexFold_of_no_collision u L _ hu ?_
    intro d hd hdu he
    exact hno d hd hdu (he ▸ hu)
  · have h1 := length_lexFold_le L (fuseSemFrom 0 S [])
    have h2 := length_fuseSemFrom_le S 0 []
    simp only [List.length_nil] at h2
    unfold fuse
    omega

/-- **C1, witness.**  A concrete overlapping-URL instance: the lexical copy
of `"u1"` is dropped and the semantic binding survives. -/
theorem fusion_dedup_invariant_witness :
    (keysOf (fuse [RDoc.lcdoc "c1" ⟨some "u1", none, none, none⟩]
      [⟨"c2", some "u1", none, none, 7⟩])).Nodup ∧
    lookupKey "u1"
      (fuse [RDoc.lcdoc "c1" ⟨some "u1", none, none, none⟩]
        [⟨"c2", some "u1", none, none, 7⟩]) =
      lookupKey "u1"
        (fuseSemFrom 0 [RDoc.lcdoc "c1" ⟨some "u1", none, none, none⟩] []) ∧
    (fuse [RDoc.lcdoc "c1" ⟨some "u1", none, none, none⟩]
      [⟨"c2", some "u1", none, none, 7⟩]).length ≤ 1 + 1 :=
  ⟨(fusion_dedup_invariant _ _).1,
   (fusion_dedup_invariant _ _).2.2.1 (by decide) "u1" (by decide),
   (fusion_dedup_invariant _ _).2.2.2⟩

/-! ## Claim C2 — no-URL safety of fusion -/

/-- **C2, counterexample.**  The claim's "adding one such candidate increases
the final fused set size by exactly one" fails on the code: a semantic
candidate with the adversarial URL `"vector_1"` already occupies the key that
the url-less candidate appended at position `1` is inserted under, so the
dict assignment overwrites instead of growing and the fused size stays 1. -/
theorem fusion_no_url_size_counterexample :
    truthyStr (semUrl (RDoc.lcdoc "c" ⟨none, none, none, none⟩)) = none ∧
    (fuse ([RDoc.lcdoc "d" ⟨some "vector_1", none, none, none⟩] ++
        [RDoc.lcdoc "c" ⟨none, none, none, none⟩]) []).length = 1 ∧
    (fuse [RDoc.lcdoc "d" ⟨some "vector_1", none, none, none⟩] []).length = 1 ∧
    (fuse ([RDoc.lcdoc "d" ⟨some "vector_1", none, none, none⟩] ++
        [RDoc.lcdoc "c" ⟨none, none, none, none⟩]) []).length ≠
      (fuse [RDoc.lcdoc "d" ⟨some "vector_1", none, none, none⟩] []).length + 1 := by
  decide

/-- **C2, amended.**  For every semantic list `S` and lexical list `L`:
every url-less semantic candidate is inserted under `"vector_" + position`
and every url-less lexical candidate under `"bm25_" + object id`, and those
keys are present in the final fused map (such candidates are never dropped
as keys); and appending one url-less candidate to either leg grows the fused
set by exactly one, provided its synthetic key does not already occur in the
fused map (the proviso the counterexample forces). -/
theorem fusion_no_url_safety (S : List RDoc) (L : List PyDoc) :
    (∀ i d, S.get? i = some d → truthyStr (semUrl d) = none →
      ("vector_" ++ toString i) ∈ keysOf (fuse S L)) ∧
    (∀ d ∈ L, truthyStr d.url = none → bm25Key d ∈ keysOf (fuse S L)) ∧
    (∀ c : RDoc, truthyStr (semUrl c) = none →
      ("vector_" ++ toString S.length) ∉ keysOf (fuse S L) →
      (fuse (S ++ [c]) L).length = (fuse S L).length + 1) ∧
    (∀ c : PyDoc, truthyStr c.url = none →
      bm25Key c ∉ keysOf (fuse S L) →
      (fuse S (L ++ [c])).length = (fuse S L).length + 1) := by
  refine ⟨?_, ?_, ?_, ?_⟩
  · intro i d hi hd
    have hmem := semKey_mem_fuseSemFrom S i 0 d ([] : CandMap) hi
    rw [Nat.zero_add] at hmem
    have hkey : semKey i d = "vector_" ++ toString i := by simp [semKey, hd]
    rw [hkey] at hmem
    exact mem_keysOf_lexFold _ _ hmem
  · intro d hd hdu
    exact bm25Key_mem_lexFold hdu L hd _
  · intro c hc hnotin
    have hkey : semKey (0 + S.length) c = "vector_" ++ toString S.length := by
      rw [Nat.zero_add]; simp [semKey, hc]
    have hfuse : fuse (S ++ [c]) L =
        lexFold L (dictInsert ("vector_" ++ toString S.length) c
          (fuseSemFrom 0 S [])) := by
      unfold fuse
      rw [fuseSemFrom_append_one, hkey]
    have hk1 : ("vector_" ++ toString S.length) ∉
        keysOf (lexFold L (fuseSemFrom 0 S [])) := hnotin
    have hkm : ("vector_" ++ toString S.length) ∉ keysOf (fuseSemFrom 0 S []) :=
      fun h => hk1 (mem_keysOf_lexFold _ _ h)
    have hperm : (keysOf (dictInsert ("vector_" ++ toString S.length) c
        (fuseSemFrom 0 S []))).Perm
        (("vector_" ++ toString S.length) :: keysOf (fuseSemFrom 0 S [])) := by
      rw [keysOf_dictInsert_of_not_mem _ hkm]
      exact List.perm_append_singleton _ _
    have hmain := keysOf_lexFold_perm_insert L (fuseSemFrom 0 S [])
      (dictInsert ("vector_" ++ toString S.length) c (fuseSemFrom 0 S []))
      ("vector_" ++ toString S.length) hperm hk1
    have hlen := hmain.length_eq
    rw [hfuse, length_eq_keysOf_length, length_eq_keysOf_length (fuse S L)]
    unfold fuse
    rw [hlen]
    simp
  · intro c hc hnotin
    have hfuse : fuse S (L ++ [c]) = lexStep (fuse S L) c := by
      unfold fuse
      rw [lexFold_append]
      rfl
    rw [hfuse, lexStep_of_no_url hc]
    exact length_dictInsert_of_not_mem _ hnotin

/-- **C2, witness.**  Concrete instances: a url-less lexical candidate's
synthetic key `"bm25_3"` is present, and appending a url-less semantic
candidate to a fused set without key collisions grows it from 2 to 3. -/
theorem fusion_no_url_safety_witness :
    bm25Key (⟨"b", none, none, none, 3⟩ : PyDoc) ∈
      keysOf (fuse [RDoc.lcdoc "a" ⟨some "u", none, none, none⟩]
        [⟨"b", none, none, none, 3⟩]) ∧
    (fuse ([RDoc.lcdoc "a" ⟨some "u", none, none, none⟩] ++
        [RDoc.lcdoc "x" ⟨none, none, none, none⟩])
      [⟨"b", none, none, none, 3⟩]).length =
      (fuse [RDoc.lcdoc "a" ⟨some "u", none, none, none⟩]
        [⟨"b", none, none, none, 3⟩]).length + 1 :=
  ⟨(fusion_no_url_safety _ _).2.1 _ (by decide) (by decide),
   (fusion_no_url_safety _ _).2.2.1 _ (by decide) (by decide)⟩

/-! ## Sorting lemmas -/

theorem insertDesc_perm (p : ℕ × ℚ) (l : List (ℕ × ℚ)) :
    (insertDesc p l).Perm (p :: l) := by
  induction l with
  | nil => exact List.Perm.refl _
  | cons q rest ih =>
    by_cases h : p.2 < q.2
    · simp only [insertDesc, h, if_true]
      exact (List.Perm.cons q ih).trans (List.Perm.swap p q rest)
    · simp only [insertDesc, h, if_false]
      exact List.Perm.refl _

theorem sortPairsDesc_perm (l : List (ℕ × ℚ)) :
    (sortPairsDesc l).Perm l := by
  induction l with
  | nil => exact List.Perm.refl _
  | cons p rest ih =>
    exact (insertDesc_perm p (sortPairsDesc rest)).trans (List.Perm.cons p ih)

theorem pairwise_insertDesc {p : ℕ × ℚ} {l : List (ℕ × ℚ)}
    (hl : l.Pairwise rankRel) (hlt : ∀ q ∈ l, p.1 < q.1) :
    (insertDesc p l).Pairwise rankRel := by
  induction l with
  | nil => simp [insertDesc]
  | cons q rest ih =>
    rcases List.pairwise_cons.mp hl with ⟨hq, hrest⟩
    by_cases h : p.2 < q.2
    · simp only [insertDesc, h, if_true]
      refine List.pairwise_cons.mpr ⟨?_, ih hrest (fun r hr => hlt r (List.mem_cons_of_mem q hr))⟩
      intro r hr
      rcases List.mem_cons.mp ((insertDesc_perm p rest).mem_iff.mp hr) with rfl | h1
      · exact Or.inl h
      · exact hq r h1
    · simp only [insertDesc, h, if_false]
      have hpq : rankRel p q := by
        rcases lt_or_eq_of_le (not_lt.mp h) with h2 | h2
        · exact Or.inl h2
        · exact Or.inr ⟨h2.symm, hlt q (List.mem_cons_self q rest)⟩
      refine List.pairwise_cons.mpr ⟨?_, hl⟩
      intro r hr
      rcases List.mem_cons.mp hr with rfl | hr'
      · exact hpq
      · rcases hq r hr' with h2 | h2
        · exact Or.inl (lt_of_lt_of_le h2 (not_lt.mp h))
        · rcases lt_or_eq_of_le (not_lt.mp h) with h3 | h3
          · exact Or.inl (h2.1 ▸ h3)
          · exact Or.inr ⟨h3.symm.trans h2.1, hlt r (List.mem_cons_of_mem q hr')⟩

theorem pairwise_sortPairsDesc {l : List (ℕ × ℚ)}
    (hl : l.Pairwise (fun p q => p.1 < q.1)) :
    (sortPairsDesc l).Pairwise rankRel := by
  induction l with
  | nil => simp [sortPairsDesc]
  | cons p rest ih =>
    rcases List.pairwise_cons.mp hl with ⟨hp, hrest⟩
    refine pairwise_insertDesc (ih hrest) ?_
    intro q hq
    exact hp q ((sortPairsDesc_perm rest).mem_iff.mp hq)

theorem mem_enumWithIndex {p : ℕ × ℚ} :
    ∀ {n : ℕ} {l : List ℚ}, p ∈ enumWithIndex n l →
      n ≤ p.1 ∧ l.get? (p.1 - n) = some p.2 := by
  intro n l
  induction l generalizing n with
  | nil => intro h; simp [enumWithIndex] at h
  | cons s ss ih =>
    intro h
    rcases List.mem_cons.mp h with rfl | h'
    · simp
    · rcases ih h' with ⟨h1, h2⟩
      constructor
      · omega
      · have hd : p.1 - n = (p.1 - (n + 1)) + 1 := by omega
        rw [hd]
        simpa using h2

theorem pairwise_enumWithIndex (n : ℕ) (l : List ℚ) :
    (enumWithIndex n l).Pairwise (fun p q => p.1 < q.1) := by
  induction l generalizing n with
  | nil => simp [enumWithIndex]
  | cons s ss ih =>
    refine List.pairwise_cons.mpr ⟨?_, ih (n + 1)⟩
    intro q hq
    exact lt_of_lt_of_le (Nat.lt_succ_self n) (mem_enumWithIndex hq).1

/-! ## Claim C3 — reranking -/

/-- **C3.**  Reranking selects at most 4 candidates
(`sorted(range(len(scores)), key=lambda i: -scores[i])[:4]`): the selected
index list is the first-component image of the stably sorted (position,
score) pairs; those pairs are pairwise ordered by strictly descending score
with equal scores in ascending insertion-position order (the stable
tie-break favouring the earlier-inserted candidate); each selected pair
reports the score at its index; every (query, passage) pair handed to the
cross-encoder carries the query — `retrievalCall` passes `st.user_query`,
the original user query, as that argument rather than a rewrite; and for
scores [0.9, 0.1, 0.5, 0.9] the returned index order is [0, 3, 2, 1]. -/
theorem rerank_top4_ordering (scores : List ℚ) (query : String)
    (combined : List RDoc) :
    ((sortIndicesDesc scores).take 4).length ≤ 4 ∧
    (sortIndicesDesc scores).take 4 =
      ((sortPairsDesc (enumWithIndex 0 scores)).take 4).map Prod.fst ∧
    ((sortPairsDesc (enumWithIndex 0 scores)).take 4).Pairwise rankRel ∧
    (∀ p ∈ (sortPairsDesc (enumWithIndex 0 scores)).take 4,
      scores.get? p.1 = some p.2) ∧
    (∀ pr ∈ rerankPairs query combined, pr.1 = query) ∧
    sortIndicesDesc [(9 : ℚ)/10, 1/10, 5/10, 9/10] = [0, 3, 2, 1] := by
  refine ⟨?_, ?_, ?_, ?_, ?_, ?_⟩
  · exact List.length_take_le 4 _
  · exact (List.map_take _ _ _).symm
  · exact List.Pairwise.sublist (List.take_sublist _ _)
      (pairwise_sortPairsDesc (pairwise_enumWithIndex 0 scores))
  · intro p hp
    have h1 : p ∈ sortPairsDesc (enumWithIndex 0 scores) :=
      (List.take_sublist _ _).subset hp
    have h2 := (sortPairsDesc_perm _).mem_iff.mp h1
    have h3 := mem_enumWithIndex h2
    simpa using h3.2
  · intro pr hpr
    rcases List.mem_map.mp hpr with ⟨d, _, rfl⟩
    rfl
  · norm_num [sortIndicesDesc, sortPairsDesc, enumWithIndex, insertDesc]

/-- **C3, witness.**  Concrete instantiation at integer-valued scores and a
one-candidate pair list. -/
theorem rerank_top4_ordering_witness :
    ((sortIndicesDesc [(2 : ℚ), 1]).take 4).length ≤ 4 ∧
    [(2 : ℚ), 1].get? 0 = some 2 ∧
    (("q", "c") : String × String).1 = "q" :=
  ⟨(rerank_top4_ordering [(2 : ℚ), 1] "q" []).1,
   (rerank_top4_ordering [(2 : ℚ), 1] "q" []).2.2.2.1 (0, (2 : ℚ)) (by decide),
   (rerank_top4_ordering [(2 : ℚ), 1] "q"
     [RDoc.pydict ⟨"c", none, none, none, 0⟩]).2.2.2.2.1 ("q", "c") (by decide)⟩

/-! ## Claim C4 — classifier fail-open -/

/-- **C4, counterexample.**  Two failures of the claim as stated: the empty
(or all-whitespace) response makes `response.strip().splitlines()[0]` raise
`IndexError` (embedded as `none`) instead of returning `"general"`; and the
response `"AIR_QUALITY"`, whose first stripped line is not exactly one of
the two labels, yields `"air_quality"` (the code lowercases before
matching), not `"general"`. -/
theorem classifier_fail_open_counterexample :
    classifyLabel "" = none ∧
    (∀ lab : String, classifyLabel "" ≠ some lab) ∧
    firstLineChars (stripList "AIR_QUALITY".data) = "AIR_QUALITY".data ∧
    "AIR_QUALITY" ≠ "air_quality" ∧
    "AIR_QUALITY" ≠ "general" ∧
    classifyLabel "AIR_QUALITY" = some "air_quality" ∧
    classifyLabel "AIR_QUALITY" ≠ some "general" := by
  refine ⟨by decide, ?_, by decide, by decide, by decide, by decide, by decide⟩
  intro lab h
  rw [(by decide : classifyLabel "" = none)] at h
  exact Option.noConfusion h

/-- **C4, amended.**  For every model response with non-empty stripped text,
`classify` returns `"air_quality"` or `"general"`; whenever the stripped,
lowercased first line is not one of the two labels the result is
`"general"`; `"banana"` yields `"general"`; and an empty or all-whitespace
response raises `IndexError` (embedded as `none`) instead of returning — a
deviation from the spec's no-exception policy. -/
theorem classifier_fail_open (r : String) :
    (pyStrip r ≠ "" →
      classifyLabel r = some "air_quality" ∨ classifyLabel r = some "general") ∧
    (pyStrip r ≠ "" → classifierParsedLabel r ≠ "air_quality" →
      classifierParsedLabel r ≠ "general" → classifyLabel r = some "general") ∧
    classifyLabel "banana" = some "general" ∧
    (pyStrip r = "" → classifyLabel r = none) := by
  have hiff : pyStrip r = "" ↔ stripList r.data = [] := by
    constructor
    · intro h
      have h2 := congrArg String.data h
      simpa [pyStrip] using h2
    · intro h
      show (⟨stripList r.data⟩ : String) = ""
      rw [h]
  refine ⟨?_, ?_, by decide, ?_⟩
  · intro h
    have h' : ¬ stripList r.data = [] := fun he => h (hiff.mpr he)
    unfold classifyLabel
    rw [if_neg h']
    by_cases h1 : classifierParsedLabel r = "air_quality" ∨
        classifierParsedLabel r = "general"
    · rw [if_pos h1]
      rcases h1 with h1 | h1
      · exact Or.inl (by rw [h1])
      · exact Or.inr (by rw [h1])
    · rw [if_neg h1]
      exact Or.inr rfl
  · intro h hn1 hn2
    have h' : ¬ stripList r.data = [] := fun he => h (hiff.mpr he)
    unfold classifyLabel
    rw [if_neg h', if_neg (by simp [hn1, hn2])]
  · intro h
    unfold classifyLabel
    rw [if_pos (hiff.mp h)]

/-- **C4, witness.**  The amended statement at `"banana"` and at an
all-whitespace response. -/
theorem classifier_fail_open_witness :
    (classifyLabel "banana" = some "air_quality" ∨
      classifyLabel "banana" = some "general") ∧
    classifyLabel "banana" = some "general" ∧
    classifyLabel "   " = none :=
  ⟨(classifier_fail_open "banana").1 (by decide),
   (classifier_fail_open "banana").2.2.1,
   (classifier_fail_open "   ").2.2.2 (by decide)⟩

/-! ## Claim C5 — expansion parse-failure fallback -/

/-- **C5.**  When `json.loads` fails on the model response (`parsed = none`),
the expander falls back to `rewrites = [originalQuery]` and
`keywords = whitespace-split(originalQuery)`; in particular
`expand("ozone levels")` yields `(["ozone levels"], ["ozone", "levels"])`. -/
theorem expansion_parse_failure_fallback (q : String) :
    expandResult none q = ([q], pySplit q) ∧
    expandResult none "ozone levels" = (["ozone levels"], ["ozone", "levels"]) :=
  ⟨rfl, by decide⟩

/-! ## Claim C8 — post-expansion non-emptiness invariant -/

/-- **C8** (code-bug evaluation).  The model response `"{}"` parses as a JSON
object carrying neither array field, so the `try` branch succeeds and
`data.get("rewrites", [])` / `data.get("keywords", [])` leave both lists
empty for the non-empty query `"ozone levels"` — the parse-failure fallback
never fires and the downstream `rewrites[0]` access
(`agents/retrieval.py` line 23) is undefined. -/
theorem expansion_post_nonempty_bug :
    (expandResult (some ⟨none, none⟩) "ozone levels").1 = [] ∧
    (expandResult (some ⟨none, none⟩) "ozone levels").2 = [] ∧
    ((expandResult (some ⟨none, none⟩) "ozone levels").1).head? = none ∧
    "ozone levels" ≠ "" := by decide

/-! ## Claim C6 — lexical scorer on an empty corpus -/

/-- **C6.**  On the empty corpus snapshot the lexical leg scores an empty
list, selects no indices and returns the empty (non-erroring) top-10 result,
for every keyword list.  (`spec-modelled`: the scorer body is the
`rank_bm25` library, absent from src/; the embedding follows spec §4.3,
whose edge case this is.) -/
theorem lexical_empty_corpus (keywords : List String) :
    bm25Scores [] keywords = [] ∧
    sortIndicesDesc (bm25Scores [] keywords) = [] ∧
    bm25TopDocs [] keywords = some [] :=
  ⟨rfl, rfl, rfl⟩

/-! ## Claim C10 — multi-word keywords are inert in lexical scoring -/

theorem splitWsAux_no_ws (cs : List Char) :
    ∀ acc, (∀ c ∈ acc, ¬ c.isWhitespace) →
      ∀ tok ∈ splitWsAux cs acc, ∀ c ∈ tok, ¬ c.isWhitespace := by
  induction cs with
  | nil =>
    intro acc hacc tok htok c hc
    by_cases h : acc = []
    · simp [splitWsAux, h] at htok
    · simp only [splitWsAux, h, if_false] at htok
      rcases List.mem_singleton.mp htok with rfl
      exact hacc c (List.mem_reverse.mp hc)
  | cons d ds ih =>
    intro acc hacc tok htok c hc
    by_cases hw : d.isWhitespace
    · by_cases h : acc = []
      · simp only [splitWsAux, hw, if_true, h] at htok
        exact ih [] (by simp) tok htok c hc
      · simp only [splitWsAux, hw, if_true, h, if_false] at htok
        rcases List.mem_cons.mp htok with rfl | htok'
        · exact hacc c (List.mem_reverse.mp hc)
        · exact ih [] (by simp) tok htok' c hc
    · simp only [splitWsAux, hw, if_false] at htok
      refine ih (d :: acc) ?_ tok htok c hc
      intro e he
      rcases List.mem_cons.mp he with rfl | he'
      · exact hw
      · exact hacc e he'

/-- Tokens produced by the whitespace split contain no whitespace
character. -/
theorem mem_pySplit_no_ws {s t : String} (ht : t ∈ pySplit s) :
    ∀ c ∈ t.data, ¬ c.isWhitespace := by
  rcases List.mem_map.mp ht with ⟨l, hl, rfl⟩
  intro c hc
  exact splitWsAux_no_ws s.data [] (by simp) l hl c hc

/-- A keyword phrase containing a whitespace character never matches a
document token, so its term frequency is zero in every document. -/
theorem count_docTokens_eq_zero {ph : String}
    (hws : ∃ c ∈ ph.data, c.isWhitespace) (d : PyDoc) :
    (docTokens d).count ph = 0 := by
  rw [List.count_eq_zero]
  intro hmem
  rcases hws with ⟨c, hc, hcw⟩
  exact mem_pySplit_no_ws hmem c hc hcw

/-- A whitespace-bearing phrase contributes zero to every document's
score. -/
theorem bm25TermScore_of_ws {ph : String}
    (hws : ∃ c ∈ ph.data, c.isWhitespace) (corpus : List PyDoc) (d : PyDoc) :
    bm25TermScore corpus d ph = 0 := by
  simp [bm25TermScore, count_docTokens_eq_zero hws]

theorem sum_map_erase (f : String → ℚ) (a : String) (hf : f a = 0)
    (l : List String) : ((l.erase a).map f).sum = (l.map f).sum := by
  induction l with
  | nil => rfl
  | cons x xs ih =>
    by_cases hx : x = a
    · subst hx
      rw [List.erase_cons_head]
      simp [hf]
    · rw [List.erase_cons_tail (by simp; exact fun he => hx he)]
      simp [ih]

/-- **C10.**  Removing a whitespace-bearing keyword phrase from the keyword
list leaves every document's lexical score — and hence the top-10 lexical
selection — unchanged: documents are tokenized by whitespace-splitting
their content while each keyword phrase is matched as one query term.
(`spec-modelled`: the scorer body follows spec §4.3, the `rank_bm25`
library being absent from src/.) -/
theorem multiword_keywords_inert (corpus : List PyDoc)
    (keywords : List String) (ph : String)
    (hws : ∃ c ∈ ph.data, c.isWhitespace) :
    bm25Scores corpus (keywords.erase ph) = bm25Scores corpus keywords ∧
    bm25TopDocs corpus (keywords.erase ph) = bm25TopDocs corpus keywords := by
  have h1 : bm25Scores corpus (keywords.erase ph) = bm25Scores corpus keywords := by
    unfold bm25Scores
    refine List.map_congr_left ?_
    intro d _
    unfold bm25DocScore
    exact sum_map_erase _ _ (bm25TermScore_of_ws hws corpus d) keywords
  refine ⟨h1, ?_⟩
  unfold bm25TopDocs
  rw [h1]

/-- **C10, witness.**  A concrete corpus and the phrase `"valley air"`. -/
theorem multiword_keywords_inert_witness :
    (∃ c ∈ ("valley air" : String).data, c.isWhitespace) ∧
    bm25Scores [⟨"pm25 ozone", some "u", some "t", none, 0⟩]
        (["valley air", "ozone"].erase "valley air") =
      bm25Scores [⟨"pm25 ozone", some "u", some "t", none, 0⟩]
        ["valley air", "ozone"] ∧
    bm25TopDocs [⟨"pm25 ozone", some "u", some "t", none, 0⟩]
        (["valley air", "ozone"].erase "valley air") =
      bm25TopDocs [⟨"pm25 ozone", some "u", some "t", none, 0⟩]
        ["valley air", "ozone"] :=
  ⟨by decide,
   (multiword_keywords_inert _ _ _ (by decide)).1,
   (multiword_keywords_inert _ _ _ (by decide)).2⟩

/-! ## Claim C7 — metadata enrichment -/

/-- **C7.**  The enrichment loop chooses the compound url+chunk exact-match
query when both are known (non-`None`), the url exact-match query when only
the url is, and the content-match query on the candidate's own text
otherwise; the single top hit, if any, replaces the candidate with the
store's authoritative record, zero hits pass the original candidate through
unchanged, and the enriched list always has the length of the top-K list. -/
theorem enrichment_contract (search : ESQuery → List Hit) (docs : List RDoc)
    (doc : RDoc) :
    (enrichDocs search docs).length = docs.length ∧
    (∀ u c, enrichUrl doc = some u → enrichChunk doc = some c →
      esQueryFor doc = .byUrlChunk u c) ∧
    (∀ u, enrichUrl doc = some u → enrichChunk doc = none →
      esQueryFor doc = .byUrl u) ∧
    (enrichUrl doc = none → esQueryFor doc = .byContent (contentOf doc)) ∧
    (search (esQueryFor doc) = [] → enrichOne search doc = doc) ∧
    (∀ h t, search (esQueryFor doc) = h :: t →
      enrichOne search doc = createDocument h) := by
  refine ⟨List.length_map _ _, ?_, ?_, ?_, ?_, ?_⟩
  · intro u c hu hc
    unfold esQueryFor
    rw [hu, hc]
  · intro u hu hc
    unfold esQueryFor
    rw [hu, hc]
  · intro hu
    unfold esQueryFor
    rw [hu]
  · intro hs
    unfold enrichOne
    rw [hs]
  · intro h t hs
    unfold enrichOne
    rw [hs]

/-- **C7, witness.**  A dict candidate without url falls back to the
content-match query and passes through unchanged on zero hits; a document
with url and chunk_index uses the compound query and is replaced by the
authoritative record on a hit. -/
theorem enrichment_contract_witness :
    (enrichDocs (fun _ => []) [RDoc.pydict ⟨"c", none, none, none, 0⟩]).length
      = 1 ∧
    esQueryFor (RDoc.pydict ⟨"c", none, none, none, 0⟩) = .byContent "c" ∧
    enrichOne (fun _ => []) (RDoc.pydict ⟨"c", none, none, none, 0⟩) =
      RDoc.pydict ⟨"c", none, none, none, 0⟩ ∧
    esQueryFor (RDoc.lcdoc "x" ⟨some "u", none, some 2, none⟩) =
      .byUrlChunk "u" 2 ∧
    enrichOne (fun _ => [⟨some "cc", some "u", some "t", some 2, some 1⟩])
        (RDoc.lcdoc "x" ⟨some "u", none, some 2, none⟩) =
      createDocument ⟨some "cc", some "u", some "t", some 2, some 1⟩ :=
  ⟨(enrichment_contract (fun _ => []) [RDoc.pydict ⟨"c", none, none, none, 0⟩]
      (RDoc.pydict ⟨"c", none, none, none, 0⟩)).1,
   (enrichment_contract (fun _ => []) []
      (RDoc.pydict ⟨"c", none, none, none, 0⟩)).2.2.2.1 (by decide),
   (enrichment_contract (fun _ => []) []
      (RDoc.pydict ⟨"c", none, none, none, 0⟩)).2.2.2.2.1 (by decide),
   (enrichment_contract (fun _ => []) []
      (RDoc.lcdoc "x" ⟨some "u", none, some 2, none⟩)).2.1 "u" 2
        (by decide) (by decide),
   (enrichment_contract (fun _ => [⟨some "cc", some "u", some "t", some 2, some 1⟩])
      [] (RDoc.lcdoc "x" ⟨some "u", none, some 2, none⟩)).2.2.2.2.2
        ⟨some "cc", some "u", some "t", some 2, some 1⟩ [] (by decide)⟩

/-! ## Claim C9 — blocking/streaming equivalence -/

theorem applyHarvest_spec (st : WfState)
    (h : Option (List String) × Option (List String)) :
    (applyHarvest st h).user_query = st.user_query ∧
    (applyHarvest st h).sources = st.sources ∧
    (applyHarvest st h).air_quality_data = st.air_quality_data := by
  unfold applyHarvest
  cases h1 : h.1 <;> cases h2 : h.2 <;> exact ⟨rfl, rfl, rfl⟩

theorem retrievalCall_spec {C : Collab} {st st' : WfState}
    (h : retrievalCall C st = some st') :
    st'.user_query = st.user_query ∧ st'.sources = st.sources ∧
    st'.air_quality_data = st.air_quality_data := by
  unfold retrievalCall at h
  split at h
  · split at h
    · injection h with h
      subst h
      exact ⟨rfl, rfl, rfl⟩
    · exact Option.noConfusion h
  · exact Option.noConfusion h

theorem synthesisCall_of_sources_none {C : Collab} {st : WfState}
    (h : st.sources = none) :
    synthesisCall C st = {st with
      answer := some (C.invoke (synthPrompt (synthContext st) st.user_query)),
      sources := some (dedupSources (st.retrieved_docs.getD []))} := by
  unfold synthesisCall
  rw [h]

theorem streamingSynthEvents_of_sources_none {C : Collab} {st : WfState}
    (h : st.sources = none) :
    streamingSynthEvents C st =
      (C.streamChunks (synthPrompt (synthContext st) st.user_query)).map .token ++
      [.answer (joinChunks (C.streamChunks (synthPrompt (synthContext st) st.user_query)))
         (dedupSources (st.retrieved_docs.getD [])),
       .done (dedupSources (st.retrieved_docs.getD [])) none] := by
  unfold streamingSynthEvents
  rw [h]
  simp [dedupSources]

/-- **C9, amended.**  On the general branch the two execution modes agree:
whenever the streamed generation chunks concatenate to the blocking
generation output and the classifier labels the query `"general"`, either
both modes fail identically, or blocking returns `(answer, sources)` and the
streaming event sequence ends with exactly the `answer` event carrying that
answer and those sources followed by the `done` event carrying those
sources.  (On the air-quality branch the modes genuinely differ — see the
counterexample.) -/
theorem workflow_modes_equiv_general (C : Collab) (q : String)
    (hstream : ∀ p, joinChunks (C.streamChunks p) = C.invoke p)
    (hgen : classifyLabel (C.invoke (classifierPrompt q)) = some "general") :
    (runWorkflow C q = none ∧ runWorkflowStreaming C q = none) ∨
    (∃ pre a s, runWorkflow C q = some (a, s) ∧
      runWorkflowStreaming C q =
        some (pre ++ [Event.answer a s, Event.done s none])) := by
  have hcls : queryClassifier C (workflowInit q) = some (generalSt1 q) := by
    show (classifyLabel (C.invoke (classifierPrompt q))).map
      (fun lab => {workflowInit q with query_type := some lab}) =
        some (generalSt1 q)
    rw [hgen]
    rfl
  have hqt : (generalSt1 q).query_type = some "general" := rfl
  have hb : runWorkflow C q = (match retrievalCall C (generalSt2 C q) with
      | none => none
      | some st3 => some ((synthesisCall C st3).answer.getD "",
          (synthesisCall C st3).sources.getD [])) := by
    unfold runWorkflow
    rw [hcls]
    show (if (generalSt1 q).query_type = some "air_quality" then _
      else if (generalSt1 q).query_type = some "general" then _ else _) = _
    rw [hqt, if_neg (by decide), if_pos rfl]
    rfl
  have hs : runWorkflowStreaming C q =
      (match retrievalCall C (generalSt2 C q) with
       | none => none
       | some st3 => some ((queryAgentStream C (generalSt1 q)).1 ++
           streamingSynthEvents C st3)) := by
    unfold runWorkflowStreaming
    rw [hcls]
    show (if (generalSt1 q).query_type = some "air_quality" then _
      else if (generalSt1 q).query_type = some "general" then _ else _) = _
    rw [hqt, if_neg (by decide), if_pos rfl]
    rfl
  cases hret : retrievalCall C (generalSt2 C q) with
  | none =>
    left
    constructor
    · rw [hb, hret]
    · rw [hs, hret]
  | some st3 =>
    right
    have hsrc : st3.sources = none := by
      rw [(retrievalCall_spec hret).2.1]
      show (applyHarvest (generalSt1 q)
        (harvest (queryAgentStream C (generalSt1 q)).1)).sources = none
      rw [(applyHarvest_spec (generalSt1 q) _).2.1]
      rfl
    refine ⟨(queryAgentStream C (generalSt1 q)).1 ++
        (C.streamChunks (synthPrompt (synthContext st3) st3.user_query)).map .token,
      C.invoke (synthPrompt (synthContext st3) st3.user_query),
      dedupSources (st3.retrieved_docs.getD []), ?_, ?_⟩
    · rw [hb, hret]
      show some ((synthesisCall C st3).answer.getD "",
        (synthesisCall C st3).sources.getD []) = _
      rw [synthesisCall_of_sources_none hsrc]
      rfl
    · rw [hs, hret]
      show some ((queryAgentStream C (generalSt1 q)).1 ++
        streamingSynthEvents C st3) = _
      rw [streamingSynthEvents_of_sources_none hsrc,
        hstream (synthPrompt (synthContext st3) st3.user_query)]
      simp

/-- **C9, witness.**  The amended equivalence instantiated at a collaborator
bundle whose streamed chunks are the singleton of the blocking output and
whose classifier response is `"general"`. -/
theorem workflow_modes_equiv_general_witness :
    (runWorkflow
        ⟨fun p => if p = classifierPrompt "wq" then "general" else "ans",
         fun p => [if p = classifierPrompt "wq" then "general" else "ans"],
         fun _ => [], fun _ => [], fun _ => [], [],
         fun _ => none, fun _ => none, fun _ => none, fun _ => false,
         fun _ _ => none⟩ "wq" = none ∧
      runWorkflowStreaming
        ⟨fun p => if p = classifierPrompt "wq" then "general" else "ans",
         fun p => [if p = classifierPrompt "wq" then "general" else "ans"],
         fun _ => [], fun _ => [], fun _ => [], [],
         fun _ => none, fun _ => none, fun _ => none, fun _ => false,
         fun _ _ => none⟩ "wq" = none) ∨
    (∃ pre a s, runWorkflow
        ⟨fun p => if p = classifierPrompt "wq" then "general" else "ans",
         fun p => [if p = classifierPrompt "wq" then "general" else "ans"],
         fun _ => [], fun _ => [], fun _ => [], [],
         fun _ => none, fun _ => none, fun _ => none, fun _ => false,
         fun _ _ => none⟩ "wq" = some (a, s) ∧
      runWorkflowStreaming
        ⟨fun p => if p = classifierPrompt "wq" then "general" else "ans",
         fun p => [if p = classifierPrompt "wq" then "general" else "ans"],
         fun _ => [], fun _ => [], fun _ => [], [],
         fun _ => none, fun _ => none, fun _ => none, fun _ => false,
         fun _ _ => none⟩ "wq" =
        some (pre ++ [Event.answer a s, Event.done s none])) :=
  workflow_modes_equiv_general _ "wq" (fun _ => rfl) (by decide)

/-- **C9, counterexample.**  On the air-quality branch the two modes produce
different outcomes even though the collaborators return the same outputs in
both modes: blocking runs the synthesis agent after the air agent and
returns the answer `"x"` with sources `[]`, while the streaming workflow
emits only a `location_needed` event — its event sequence carries no
`answer` and no `done` event at all, so no final answer/done events equal
the blocking pair. -/
theorem workflow_modes_counterexample :
    (∀ p, joinChunks (cexCollab.streamChunks p) = cexCollab.invoke p) ∧
    classifyLabel (cexCollab.invoke (classifierPrompt "cex")) =
      some "air_quality" ∧
    runWorkflow cexCollab "cex" = some ("x", []) ∧
    runWorkflowStreaming cexCollab "cex" =
      some [Event.locationNeeded defaultLocMsg] ∧
    ([Event.locationNeeded defaultLocMsg].all fun e =>
      match e with
      | .answer _ _ => false
      | .done _ _ => false
      | _ => true) = true := by
  refine ⟨fun p => rfl, by decide, by decide, by decide, by decide⟩

/-! ### Sanity examples for fusion and sorting -/

example :
    fuse [.lcdoc "a" ⟨some "u", none, none, none⟩]
      [⟨"b", some "u", some "t", none, 3⟩] =
    [("u", .lcdoc "a" ⟨some "u", none, none, none⟩)] := by decide

example :
    sortIndicesDesc [(9 : ℚ)/10, 1/10, 5/10, 9/10] = [0, 3, 2, 1] := by
  norm_num [sortIndicesDesc, sortPairsDesc, enumWithIndex, insertDesc]

/-! ### Sanity examples for the string models -/

example : pySplit "ozone levels" = ["ozone", "levels"] := by decide
example : pySplit "  a  b " = ["a", "b"] := by decide
example : pySplit "" = [] := by decide
example : pyStrip "  hi \n" = "hi" := by decide
example : classifyLabel "banana" = some "general" := by decide
example : classifyLabel " Air_Quality \nextra" = some "air_quality" := by decide
example : classifyLabel "  \n " = none := by decide

end ValleyAir
